import Mathlib

/-!
Verification development for the `autocoder` repository.

This file shallowly embeds the core logic of the repository in Lean 4:

* `conversation_manager.py` — the conversation store (`update_conversation`,
  `slide_conversation_window`, `validate_message`, JSON persistence model);
* `recursive_builder.py` — the response parser
  (`extract_questions_and_code`), the refinement step
  (`refine_incomplete_code`) and the recursive orchestrator
  (`recursive_prompt`, `handle_question`);
* `verification.py` — the verifier front-end (`verify_code_with_chatgpt`).

Python strings are modelled as Lean `String`s (sequences of code points);
machine-level details (UTF-8 byte layout) do not matter for any statement
here.  External capabilities (model calls, `input()`, lint/test
subprocesses, `json.loads`) are modelled as explicit oracle parameters, so
every embedded function is a pure, executable Lean definition.  Side effects
of the orchestrator (generation calls, verification calls, human questions,
file writes, lint/test runs) are recorded in an explicit event trace.
-/

/-! ## Python text primitives

`String.splitOn` from core is defined by well-founded recursion and does not
reduce inside the kernel, so the Python `str.split` semantics is implemented
below by structurally recursive scans over `List Char`. -/

/-- The ASCII whitespace characters stripped by Python's `str.strip()`:
space, tab, newline, carriage return, vertical tab, form feed.
(Non-ASCII whitespace is irrelevant to every statement in this file.) -/
def pyIsSpace (c : Char) : Bool :=
  c == ' ' || c == '\t' || c == '\n' || c == '\r' ||
  c == Char.ofNat 11 || c == Char.ofNat 12

/-- Python `str.strip()`: remove leading and trailing whitespace. -/
def pyStrip (s : String) : String :=
  (((s.toList.dropWhile pyIsSpace).reverse.dropWhile pyIsSpace).reverse).asString

/-- Python `s.endswith("?")`: the last character is `?`. -/
def pyEndsWithQn (s : String) : Bool :=
  match s.toList.getLast? with
  | some c => c == '?'
  | none => false

/-- Split a character list at every occurrence of the single character `c`,
keeping empty pieces — the semantics of Python `str.split` with a
one-character separator. -/
def splitCharL (c : Char) : List Char → List (List Char)
  | [] => [[]]
  | a :: as =>
    match splitCharL c as, a == c with
    | r, true => [] :: r
    | h :: t, false => (a :: h) :: t
    | [], false => [[a]]

/-- Python `s.split("\n")`. -/
def pySplitLines (s : String) : List String :=
  (splitCharL '\n' s.toList).map List.asString

/-- Left-to-right scan splitting at each leftmost, non-overlapping
occurrence of three consecutive `tick` characters: `pend` counts the ticks
of a partially matched separator, `acc` holds the current piece reversed. -/
def splitTripleAux (tick : Char) : List Char → Nat → List Char → List (List Char)
  | [], pend, acc => [acc.reverse ++ List.replicate pend tick]
  | a :: as, pend, acc =>
    if a == tick then
      if pend == 2 then acc.reverse :: splitTripleAux tick as 0 []
      else splitTripleAux tick as (pend + 1) acc
    else splitTripleAux tick as 0 (a :: (List.replicate pend tick ++ acc))

/-- Python `s.split("` ``` `")`: split at every leftmost, non-overlapping
occurrence of a triple backtick, keeping empty pieces. -/
def pySplitTicks (s : String) : List String :=
  (splitTripleAux '`' s.toList 0 []).map List.asString

/-! ## Response parser (`recursive_builder.extract_questions_and_code`) -/

/-- The question/code structure returned by `extract_questions_and_code`. -/
structure ExtractResult where
  questions : List String
  code_blocks : List String
deriving DecidableEq

/-- Semantics of `re.findall(r"` ```(.*?)``` `", text, re.DOTALL)` expressed
on the segments of `text.split("` ``` `")`: the regex engine repeatedly takes
the first unconsumed fence as an opening fence and the next fence as the
matching closing fence, capturing the segment between them; a final
unmatched opening fence yields no capture. -/
def fenceMatches : List String → List String
  | _pre :: block :: rest =>
    if rest.isEmpty then [] else block :: fenceMatches rest
  | _ => []

/-- `recursive_builder.extract_questions_and_code` (src/recursive_builder.py,
lines 92–115): collect every line whose stripped form ends in `?` (appending
the stripped line), and every fenced region with the fence markers removed
and the contents stripped.  The debug `print` on line 106 is pure output and
is not modelled. -/
def extract_questions_and_code (s : String) : ExtractResult :=
  { questions := (pySplitLines s).foldl
      (fun acc line => if pyEndsWithQn (pyStrip line) then acc ++ [pyStrip line] else acc) [],
    code_blocks := (fenceMatches (pySplitTicks s)).map pyStrip }

/-- Spec-side description of the question scan (spec §4.2): "every line
(after trimming whitespace) ending in `?`, in order of appearance,
duplicates preserved" — a map-then-filter over the lines of the text. -/
def questionsSpec (s : String) : List String :=
  ((pySplitLines s).map pyStrip).filter (fun q => pyEndsWithQn q)

/-- The segments strictly between consecutive fence pairs: the segments at
odd positions, except a final segment, which would correspond to an
unterminated opening fence. -/
def specInnerSegments : List String → List String
  | [] => []
  | [_] => []
  | [_, _] => []
  | _ :: b :: c :: rest => b :: specInnerSegments (c :: rest)

/-- Spec-side description of the fence scan, amended to match the code:
the contents of each properly closed triple-backtick fence, in order of
appearance, fence markers removed, surrounding whitespace trimmed, with the
language tag (if any) retained as part of the contents. -/
def codeBlocksSpec (s : String) : List String :=
  (specInnerSegments (pySplitTicks s)).map pyStrip

/-! ## Conversation store (`conversation_manager.ConversationManager`)

The Python store is `self.conversations`, a `dict` mapping branch names to
lists of message dicts.  A Python `dict` is insertion-ordered with unique
keys; it is modelled as an association list where `dictSet` overwrites the
first matching key in place and otherwise appends at the end.  The
`save_conversations` call performed after each mutation writes the store to
disk and does not change the in-memory state, so it does not appear in the
state-transition functions; persistence itself is modelled in the JSON
section below. -/

/-- A message as built by `update_conversation`:
`{"role": ..., "content": ..., "timestamp": ..., "message_id": ...}`. -/
structure Message where
  role : String
  content : String
  timestamp : String
  message_id : Nat
deriving DecidableEq

/-- The conversation store: branch name → message list, insertion ordered. -/
abbrev Store := List (String × List Message)

/-- Python `self.conversations.get(branch_name, [])`. -/
def dictGetConv : Store → String → List Message
  | [], _ => []
  | (k, v) :: rest, b => if k = b then v else dictGetConv rest b

/-- Python `self.conversations[branch_name] = v`: overwrite an existing key
in place, otherwise insert at the end (dict insertion order). -/
def dictSetConv : Store → String → List Message → Store
  | [], b, v => [(b, v)]
  | (k, w) :: rest, b, v =>
    if k = b then (k, v) :: rest else (k, w) :: dictSetConv rest b v

/-- Python list slice `l[i:]` for an `int` index `i` (possibly negative):
a negative start counts from the end, clamped at the list borders. -/
def pySliceFrom (l : List α) (i : Int) : List α :=
  if i < 0 then l.drop (l.length - min l.length i.natAbs)
  else l.drop i.toNat

/-- `ConversationManager.slide_conversation_window`
(src/conversation_manager.py, lines 88–96): if the history exceeds
`MAX_CONVERSATION_LENGTH`, keep `conversation_history[0]` plus
`conversation_history[-(MAX_CONVERSATION_LENGTH - 1):]`.  The `[]` branch of
the match is unreachable: a list longer than a natural number is nonempty. -/
def slide_conversation_window (maxLen : Nat) (conversation_history : List Message) :
    List Message :=
  if conversation_history.length > maxLen then
    match conversation_history with
    | [] => []
    | x :: _ => x :: pySliceFrom conversation_history (1 - (maxLen : Int))
  else conversation_history

/-- The two validation failures of `ConversationManager.validate_message`. -/
inductive ValidationError where
  | invalidRole (role : String)
  | emptyContent
deriving DecidableEq

/-- `ConversationManager.validate_message` (src/conversation_manager.py,
lines 63–69): reject a role outside `{system, user, assistant}` and empty
content.  (`not isinstance(content, str)` cannot arise in the typed
embedding.)  Note: no method of the class ever calls this function. -/
def validate_message (role content : String) : Except ValidationError Unit :=
  if ¬ (role = "system" ∨ role = "user" ∨ role = "assistant") then
    .error (.invalidRole role)
  else if content = "" then .error .emptyContent
  else .ok ()

/-- The message built by `update_conversation`: its `message_id` is the
length of the branch before the append, plus one. -/
def appendedMessage (st : Store) (branch role content now : String) : Message :=
  { role := role, content := content, timestamp := now,
    message_id := (dictGetConv st branch).length + 1 }

/-- `ConversationManager.update_conversation` (src/conversation_manager.py,
lines 71–86): build the message (timestamp supplied as `now`), append it to
the branch (created empty when missing), then store the slid window.  It
performs no validation.  The trailing `save_conversations()` does not change
the in-memory store. -/
def update_conversation (maxLen : Nat) (now : String) (st : Store)
    (branch role content : String) : Store :=
  let message := appendedMessage st branch role content now
  dictSetConv st branch
    (slide_conversation_window maxLen (dictGetConv st branch ++ [message]))

/-! ## Persistence model (`save_conversations` / `load_conversations`)

`save_conversations` writes `json.dump(self.conversations, f)` and
`load_conversations` reads `self.conversations = json.load(f)`.  The JSON
text encoding itself is the Python standard library; the snapshot is
modelled at the JSON value level: saving maps the store to the JSON tree
that `json.dump` serialises, loading maps a JSON tree back to a store. -/

/-- The JSON value fragment needed for verdicts and conversation snapshots. -/
inductive Json where
  | null
  | bool (b : Bool)
  | num (n : Nat)
  | str (s : String)
  | arr (elements : List Json)
  | obj (fields : List (String × Json))

/-- The JSON object written for one message dict (Python dicts preserve
insertion order, so the field order is fixed). -/
def msgToJson (m : Message) : Json :=
  .obj [("role", .str m.role), ("content", .str m.content),
        ("timestamp", .str m.timestamp), ("message_id", .num m.message_id)]

/-- `ConversationManager.save_conversations` (src/conversation_manager.py,
lines 46–55), modelled as the JSON snapshot value that `json.dump` writes:
an object keyed by branch name whose values are arrays of message objects. -/
def save_conversations (st : Store) : Json :=
  .obj (st.map fun kv => (kv.1, .arr (kv.2.map msgToJson)))

/-- Option-valued `mapM`, used by the snapshot decoder. -/
def mapMO (f : α → Option β) : List α → Option (List β)
  | [] => some []
  | a :: as =>
    match f a with
    | none => none
    | some b => (mapMO f as).map (fun bs => b :: bs)

/-- Decode one message object of a snapshot. -/
def msgOfJson : Json → Option Message
  | .obj [("role", .str r), ("content", .str c),
          ("timestamp", .str t), ("message_id", .num i)] =>
    some { role := r, content := c, timestamp := t, message_id := i }
  | _ => none

/-- `ConversationManager.load_conversations` (src/conversation_manager.py,
lines 32–44), modelled on the JSON snapshot value that `json.load` parses:
read the object back into the branch-keyed store. -/
def load_conversations : Json → Option Store
  | .obj fields =>
    mapMO (fun kv =>
      match kv.2 with
      | .arr ms => (mapMO msgOfJson ms).map (fun msgs => (kv.1, msgs))
      | _ => none) fields
  | _ => none

/-! ## JSON helpers used by the orchestrator and verifier -/

/-- Python truthiness of a JSON-decoded value (`if not verification_data:`,
`if complete_flag:`). -/
def pyTruthy : Json → Bool
  | .null => false
  | .bool b => b
  | .num n => n != 0
  | .str s => s != ""
  | .arr xs => !xs.isEmpty
  | .obj fs => !fs.isEmpty

/-- First binding of a key in a JSON object's field list. -/
def jsonFieldsGet : List (String × Json) → String → Option Json
  | [], _ => none
  | (k, v) :: rest, key => if k = key then some v else jsonFieldsGet rest key

/-- Python `d.get(key, default)` on a decoded JSON object. -/
def jsonGetD (j : Json) (key : String) (dflt : Json) : Json :=
  match j with
  | .obj fs => (jsonFieldsGet fs key).getD dflt
  | _ => dflt

/-- Whether a JSON value is the literal `true` — Python's
`... .get("complete") is True`. -/
def isJsonTrue : Json → Bool
  | .bool true => true
  | _ => false

mutual

/-- Python `repr` of a decoded JSON value (string escaping inside nested
containers is not reproduced; no statement in this file depends on it). -/
def reprJson : Json → String
  | .null => "None"
  | .bool true => "True"
  | .bool false => "False"
  | .num n => toString n
  | .str s => "'" ++ s ++ "'"
  | .arr xs => "[" ++ reprJsonList xs ++ "]"
  | .obj fs => "\x7b" ++ reprJsonFields fs ++ "\x7d"

/-- Comma-separated `repr` of a JSON array's elements. -/
def reprJsonList : List Json → String
  | [] => ""
  | [x] => reprJson x
  | x :: y :: rest => reprJson x ++ ", " ++ reprJsonList (y :: rest)

/-- Comma-separated `repr` of a JSON object's fields. -/
def reprJsonFields : List (String × Json) → String
  | [] => ""
  | [(k, v)] => "'" ++ k ++ "': " ++ reprJson v
  | (k, v) :: p :: rest => "'" ++ k ++ "': " ++ reprJson v ++ ", " ++ reprJsonFields (p :: rest)

end

/-- Python `str()` of a decoded JSON value, as applied by the f-string that
embeds the verifier feedback into the refinement prompt. -/
def jsonPyStr : Json → String
  | .str s => s
  | j => reprJson j

/-! ## Verifier front-end (`verification.verify_code_with_chatgpt`) -/

/-- Semantics of `re.search(r"\x7b.*\x7d", raw_response, re.DOTALL)`: the
leftmost-start, greedy match runs from the first `\x7b` to the last `\x7d`
of the text, and exists exactly when some `\x7d` occurs after a `\x7b`. -/
def braceSpan (s : String) : Option String :=
  let l := s.toList.dropWhile (fun c => c != Char.ofNat 123)
  match l with
  | [] => none
  | _ :: _ =>
    let r := (l.reverse.dropWhile (fun c => c != Char.ofNat 125)).reverse
    if r.isEmpty then none else some r.asString

/-- `verification.verify_code_with_chatgpt` (src/verification.py, lines
79–116).  The two external collaborators are passed as oracles:
`raw_response` is the result of `call_verification_model` (`none` models
the underlying call raising, which the surrounding `try` converts to a
`None` return), and `loadsJson` is `json.loads` (`none` models a parse
exception, likewise caught).  An empty response, a response without a
brace-delimited region, a parse failure and a failed call all yield
`none`; a parsed verdict is returned as is. -/
def verify_code_with_chatgpt (raw_response : Option String)
    (loadsJson : String → Option Json) : Option Json :=
  match raw_response with
  | none => none
  | some raw =>
    if raw = "" then none
    else
      match braceSpan raw with
      | none => none
      | some json_str => loadsJson json_str

/-! ## Recursive orchestrator (`recursive_builder`)

The orchestrator's external collaborators are collected in `Env`:
`gen` is the generation capability (`call_model`, the reply's message
content as a function of the branch history), `verify` is
`verify_code_with_chatgpt` as a capability (the parsed verdict per code
snippet), `ask` is the blocking `input()` call of `handle_question`,
`lint`/`tests` are `run_lint_checks`/`run_tests_on_code`, `now` is the
timestamp supplied to `update_conversation`, and `maxLen` is
`MAX_CONVERSATION_LENGTH`.  Every externally visible action is recorded as
an `Event`; `asyncio` concurrency is serialised deterministically: the
verification tasks are dispatched and collected in index order, and the
gathered question tasks run in index order. -/

/-- One externally visible action of the orchestrator. -/
inductive Event where
  | genCall (history : List Message) (reply : String)
  | verifyCall (code : String) (verdict : Option Json)
  | askHuman (question : String) (answer : String)
  | saveFile (file_name code : String)
  | lintCheck (file_name : String) (ok : Bool)
  | testCheck (file_name : String) (ok : Bool)
  | refineEnter (feedback code : String) (code_index : Nat)

/-- The orchestrator's external collaborators and configuration. -/
structure Env where
  maxLen : Nat
  now : String
  gen : List Message → String
  verify : String → Option Json
  ask : String → String
  lint : String → Bool
  tests : String → Bool

/-- Orchestration state: the conversation store plus the event trace. -/
structure OState where
  store : Store
  events : List Event

/-- Record an event. -/
def logEvent (st : OState) (e : Event) : OState :=
  { st with events := st.events ++ [e] }

/-- `conv_manager.update_conversation` as called by the orchestrator. -/
def appendMsg (env : Env) (st : OState) (branch role content : String) : OState :=
  { st with store := update_conversation env.maxLen env.now st.store branch role content }

/-- `recursive_builder.refine_incomplete_code` (src/recursive_builder.py,
lines 132–178): append a user message quoting the feedback and the original
snippet, generate once, append the reply, take the first code block of the
reply (aborting when there is none), re-verify it once, and on a verdict
whose `complete` field is literally `true` save the refined file and run
lint and tests.  The entry is recorded as a `refineEnter` event. -/
def refine_incomplete_code (env : Env)
    (branch_name incomplete_feedback existing_code_snippet : String)
    (code_index : Nat) (st : OState) : OState :=
  let st := logEvent st (.refineEnter incomplete_feedback existing_code_snippet code_index)
  let refine_prompt :=
    "We received the following feedback from a verification step:\n\n'" ++
    incomplete_feedback ++
    "'\n\nPlease refine the following code snippet to address these issues. " ++
    "Only provide the refined snippet in triple backticks:\n\n```python\n" ++
    existing_code_snippet ++ "\n```"
  let st := appendMsg env st branch_name "user" refine_prompt
  let conversation_history := dictGetConv st.store branch_name
  let improvement_response := env.gen conversation_history
  let st := logEvent st (.genCall conversation_history improvement_response)
  let st := appendMsg env st branch_name "assistant" improvement_response
  let parsed := extract_questions_and_code improvement_response
  match parsed.code_blocks with
  | [] => st
  | improved_code :: _ =>
    let file_name := branch_name ++ "_refined_" ++ toString code_index ++ ".py"
    let verification_data := env.verify improved_code
    let st := logEvent st (.verifyCall improved_code verification_data)
    match verification_data with
    | none => st
    | some vd =>
      if pyTruthy vd && isJsonTrue (jsonGetD vd "complete" .null) then
        let st := logEvent st (.saveFile file_name improved_code)
        let st := logEvent st (.lintCheck file_name (env.lint file_name))
        let st := logEvent st (.testCheck file_name (env.tests file_name))
        st
      else st

/-- The body of the verification-result loop of `recursive_prompt`
(src/recursive_builder.py, lines 271–298) for one code block: a missing or
falsy (e.g. empty-object) verdict is skipped; a truthy verdict with a truthy
`complete` field saves the artifact and runs lint and tests; otherwise the
refinement loop is invoked with `feedback = verdict.get("feedback",
"No feedback provided.")`. -/
def process_block (env : Env) (branch_name : String) (i : Nat)
    (code_snippet : String) (verification_data : Option Json) (st : OState) : OState :=
  match verification_data with
  | none => st
  | some vd =>
    if !pyTruthy vd then st
    else
      let complete_flag := pyTruthy (jsonGetD vd "complete" (.bool false))
      let feedback := jsonPyStr (jsonGetD vd "feedback" (.str "No feedback provided."))
      let file_name := branch_name ++ "_part" ++ toString i ++ ".py"
      if complete_flag then
        let st := logEvent st (.saveFile file_name code_snippet)
        let st := logEvent st (.lintCheck file_name (env.lint file_name))
        let st := logEvent st (.testCheck file_name (env.tests file_name))
        st
      else
        refine_incomplete_code env branch_name feedback code_snippet i st

/-- `recursive_builder.handle_question` (src/recursive_builder.py, lines
184–217) with the recursive continuation abstracted: unless the depth bound
is exceeded, ask the human, append the answer as a user message to the given
branch, and re-enter `recursive_prompt` on that branch with the answer as
the prompt (which appends the answer a second time). -/
def handle_question_step (env : Env)
    (recur : String → String → Nat → Nat → OState → OState)
    (question_text branch_name : String) (depth max_depth : Nat)
    (st : OState) : OState :=
  if depth > max_depth then st
  else
    let user_answer := env.ask question_text
    let st := logEvent st (.askHuman question_text user_answer)
    let st := appendMsg env st branch_name "user" user_answer
    recur branch_name user_answer depth max_depth st

/-- `recursive_builder.recursive_prompt` (src/recursive_builder.py, lines
224–309): abort beyond `max_depth`; append the prompt; generate; abort on an
empty (stripped) reply; append the reply; parse it; verify all code blocks
(dispatched and collected in index order); process the verdicts in index
order via `process_block`; then handle each question on the derived branch
`f"\x7bbranch_name\x7d_Q\x7bi\x7d"` at `depth + 1`.  `fuel` bounds the
recursion unwinding and is consumed once per nested round; the `fuel = 0`
case is unreachable whenever `fuel > max_depth - depth`, since every
recursive entry increases `depth`. -/
def recursive_prompt (env : Env) (fuel : Nat) (branch_name user_prompt : String)
    (depth max_depth : Nat) (st : OState) : OState :=
  if depth > max_depth then st
  else
    match fuel with
    | 0 => st
    | fuel' + 1 =>
      let st := appendMsg env st branch_name "user" user_prompt
      let conversation_history := dictGetConv st.store branch_name
      let reply := env.gen conversation_history
      let st := logEvent st (.genCall conversation_history reply)
      let assistant_response := pyStrip reply
      if assistant_response = "" then st
      else
        let st := appendMsg env st branch_name "assistant" assistant_response
        let parsed := extract_questions_and_code assistant_response
        let verification_results := parsed.code_blocks.map env.verify
        let st := (parsed.code_blocks.zip verification_results).foldl
          (fun acc cv => logEvent acc (.verifyCall cv.1 cv.2)) st
        let st := ((parsed.code_blocks.zip verification_results).enum).foldl
          (fun acc icv => process_block env branch_name icv.1 icv.2.1 icv.2.2 acc) st
        parsed.questions.enum.foldl
          (fun acc iq =>
            handle_question_step env
              (fun b p d m s => recursive_prompt env fuel' b p d m s)
              iq.2 (branch_name ++ "_Q" ++ toString iq.1) (depth + 1) max_depth acc)
          st

/-- `recursive_builder.handle_question` proper: `handle_question_step` with
the continuation `recursive_prompt` at the given fuel. -/
def handle_question (env : Env) (fuel : Nat) (question_text branch_name : String)
    (depth max_depth : Nat) (st : OState) : OState :=
  handle_question_step env (fun b p d m s => recursive_prompt env fuel b p d m s)
    question_text branch_name depth max_depth st

example : pyStrip "  Need more info?  " = "Need more info?" := by decide

example : pySplitTicks "a```python:code```b" = ["a", "python:code", "b"] := by decide

example :
    extract_questions_and_code "Need more info?" =
      { questions := ["Need more info?"], code_blocks := [] } := by decide

example :
    extract_questions_and_code "a?\n```python\nprint(1)\n```\nb" =
      { questions := ["a?"], code_blocks := ["python\nprint(1)"] } := by decide


/-! ## Supporting lemmas -/

/-- Reading back the branch just written by `dictSetConv`. -/
theorem dictGetConv_dictSetConv_self (st : Store) (b : String) (v : List Message) :
    dictGetConv (dictSetConv st b v) b = v := by
  induction st with
  | nil => simp [dictSetConv, dictGetConv]
  | cons kv rest ih =>
    obtain ⟨k, w⟩ := kv
    by_cases h : k = b <;> simp [dictSetConv, dictGetConv, h, ih]

/-- The branch contents after `update_conversation`: the slid window of the
old contents extended by the new message. -/
theorem update_conversation_branch (maxLen : Nat) (now : String) (st : Store)
    (branch role content : String) :
    dictGetConv (update_conversation maxLen now st branch role content) branch =
      slide_conversation_window maxLen
        (dictGetConv st branch ++ [appendedMessage st branch role content now]) := by
  unfold update_conversation
  exact dictGetConv_dictSetConv_self ..

/-- Dropping a prefix-bounded number of elements from an append. -/
theorem drop_append_le (l₁ l₂ : List α) (n : Nat) (h : n ≤ l₁.length) :
    (l₁ ++ l₂).drop n = l₁.drop n ++ l₂ := by
  induction l₁ generalizing n with
  | nil =>
    simp only [List.length_nil, Nat.le_zero] at h
    subst h
    simp
  | cons a t ih =>
    cases n with
    | zero => simp
    | succ k =>
      simp only [List.cons_append, List.drop_succ_cons]
      exact ih k (by simpa using h)

/-- A window that does not overflow is left unchanged. -/
theorem slide_eq_of_le (maxLen : Nat) (l : List Message) (h : l.length ≤ maxLen) :
    slide_conversation_window maxLen l = l := by
  unfold slide_conversation_window
  rw [if_neg (by omega)]

/-- An overflowing window (for a meaningful `maxLen ≥ 2`): the head plus the
last `maxLen - 1` entries. -/
theorem slide_eq_of_gt (maxLen : Nat) (h2 : 2 ≤ maxLen) (x : Message) (xs : List Message)
    (hl : maxLen < (x :: xs).length) :
    slide_conversation_window maxLen (x :: xs) =
      x :: (x :: xs).drop ((x :: xs).length - (maxLen - 1)) := by
  unfold slide_conversation_window
  rw [if_pos (by omega)]
  unfold pySliceFrom
  rw [if_pos (by omega)]
  have h1 : ((1 : Int) - (maxLen : Int)).natAbs = maxLen - 1 := by omega
  have h4 : min (x :: xs).length (maxLen - 1) = maxLen - 1 := by
    simp only [List.length_cons] at hl ⊢
    omega
  rw [h1, h4]

/-- The `pySliceFrom` inside an overflowing `slide_conversation_window` is a
`drop` of at most the old length, except in the degenerate corner
`maxLen = 0` with a singleton history. -/
theorem pySliceFrom_slide_arg (old : List Message) (m : Message) (maxLen : Nat)
    (h : ¬(maxLen = 0 ∧ old = [])) :
    ∃ k ≤ old.length, pySliceFrom (old ++ [m]) (1 - (maxLen : Int)) = (old ++ [m]).drop k := by
  unfold pySliceFrom
  by_cases hneg : (1 : Int) - (maxLen : Int) < 0
  · rw [if_pos hneg]
    refine ⟨(old ++ [m]).length - min (old ++ [m]).length ((1 - (maxLen : Int)).natAbs), ?_, rfl⟩
    have h2 : 2 ≤ maxLen := by omega
    have h1 : ((1 : Int) - (maxLen : Int)).natAbs = maxLen - 1 := by omega
    rw [h1]
    simp only [List.length_append, List.length_cons, List.length_nil]
    omega
  · rw [if_neg hneg]
    refine ⟨(1 - (maxLen : Int)).toNat, ?_, rfl⟩
    have hm : maxLen = 0 ∨ maxLen = 1 := by omega
    rcases hm with hm | hm
    · subst hm
      have : old ≠ [] := fun he => h ⟨rfl, he⟩
      have : 1 ≤ old.length := List.length_pos.mpr this
      omega
    · subst hm
      simp

/-- The freshly appended message is always the last element of the branch
after `update_conversation`, for every window size. -/
theorem slide_getLast? (maxLen : Nat) (old : List Message) (m : Message) :
    (slide_conversation_window maxLen (old ++ [m])).getLast? = some m := by
  by_cases hlen : (old ++ [m]).length > maxLen
  · by_cases hc : maxLen = 0 ∧ old = []
    · obtain ⟨h0, ho⟩ := hc
      subst h0
      subst ho
      unfold slide_conversation_window
      rw [if_pos (by simp)]
      simp [pySliceFrom]
    · cases ho : old with
      | nil =>
        exfalso
        subst ho
        simp only [List.nil_append, List.length_cons, List.length_nil] at hlen
        exact hc ⟨by omega, rfl⟩
      | cons o os =>
        subst ho
        obtain ⟨k, hk, heq⟩ := pySliceFrom_slide_arg (o :: os) m maxLen hc
        unfold slide_conversation_window
        rw [if_pos hlen]
        simp only [List.cons_append]
        rw [show ((o :: os) ++ [m] : List Message) = o :: (os ++ [m]) from rfl] at heq
        rw [heq]
        have hdrop : List.drop k (o :: (os ++ [m])) = (o :: os).drop k ++ [m] := by
          rw [← List.cons_append]
          exact drop_append_le (o :: os) [m] k hk
        rw [hdrop]
        rw [show (o :: ((o :: os).drop k ++ [m]) : List Message) =
              (o :: (o :: os).drop k) ++ [m] from rfl]
        exact List.getLast?_concat _
  · unfold slide_conversation_window
    rw [if_neg hlen]
    exact List.getLast?_concat _

/-- The question-collecting fold of `extract_questions_and_code`, run from
any accumulator, appends exactly the stripped question lines. -/
theorem foldl_questions (lines : List String) (acc : List String) :
    lines.foldl
        (fun acc line => if pyEndsWithQn (pyStrip line) then acc ++ [pyStrip line] else acc)
        acc
      = acc ++ ((lines.map pyStrip).filter fun q => pyEndsWithQn q) := by
  induction lines generalizing acc with
  | nil => simp
  | cons l ls ih =>
    simp only [List.foldl_cons, List.map_cons, List.filter_cons]
    by_cases h : pyEndsWithQn (pyStrip l)
    · rw [if_pos h, if_pos h, ih]
      simp
    · rw [if_neg h, if_neg h, ih]

/-- The question list of the parser is exactly the spec's map-then-filter
line scan, independently of the fence structure of the text. -/
theorem extract_questions_eq_spec (s : String) :
    (extract_questions_and_code s).questions = questionsSpec s := by
  unfold extract_questions_and_code questionsSpec
  rw [foldl_questions]
  simp

/-- The paired-fence capture of the regex scan equals the odd-segment
description. -/
theorem fenceMatches_eq_spec : (segs : List String) →
    fenceMatches segs = specInnerSegments segs
  | [] => rfl
  | [_] => rfl
  | [_, _] => rfl
  | _ :: b :: c :: rest => congrArg (List.cons b) (fenceMatches_eq_spec (c :: rest))

/-- Decoding the encoded messages of one branch restores them. -/
theorem mapMO_msgOfJson_msgToJson (msgs : List Message) :
    mapMO msgOfJson (msgs.map msgToJson) = some msgs := by
  induction msgs with
  | nil => rfl
  | cons m ms ih => simp [mapMO, msgToJson, msgOfJson, ih]

/-! ## Claim theorems -/

/-- Does an event record an `input()` question to the human? -/
def isAskEvent : Event → Bool
  | .askHuman _ _ => true
  | _ => false

/-- Does an event record a generation call? -/
def isGenEvent : Event → Bool
  | .genCall _ _ => true
  | _ => false

/-- Does an event record a verification call? -/
def isVerifyEvent : Event → Bool
  | .verifyCall _ _ => true
  | _ => false

/-- Does an event record an entry into `refine_incomplete_code`? -/
def isRefineEvent : Event → Bool
  | .refineEnter _ _ _ => true
  | _ => false

/-- The empty orchestration state: no branches, no events. -/
def stZero : OState := { store := [], events := [] }

/-- The spec §8 question scenario as oracles: generation answers the very
first turn with the single question `"Need more info?"` and every later turn
with an empty reply; verification never returns a verdict; the human always
answers `"because"`. -/
def envQuestion : Env :=
  { maxLen := 10, now := "T",
    gen := fun h => if h.length = 1 then "Need more info?" else "",
    verify := fun _ => none,
    ask := fun _ => "because",
    lint := fun _ => true, tests := fun _ => true }

/-- Oracles for a turn that yields exactly one code block whose verification
verdict is absent. -/
def envAbsentVerdict : Env :=
  { maxLen := 10, now := "T",
    gen := fun _ => "```\ncode\n```",
    verify := fun _ => none,
    ask := fun _ => "x",
    lint := fun _ => true, tests := fun _ => true }

/-- C5: for every invocation of `recursive_prompt` with `depth > max_depth`,
the orchestrator performs no generation call and returns immediately without
appending any message: the state (store and event trace) is returned
unchanged. -/
theorem C5_depth_bound_returns_unchanged (env : Env) (fuel : Nat)
    (branch prompt : String) (depth max_depth : Nat) (st : OState)
    (h : max_depth < depth) :
    recursive_prompt env fuel branch prompt depth max_depth st = st := by
  unfold recursive_prompt
  rw [if_pos h]

/-- Witness for C5 at `depth = max_depth + 1 = 4`. -/
theorem C5_depth_bound_returns_unchanged_witness :
    recursive_prompt envQuestion 5 "root" "build X" 4 3 stZero = stZero :=
  C5_depth_bound_returns_unchanged envQuestion 5 "root" "build X" 4 3 stZero (by decide)

/-- C3 (code_bug): `validate_message` rejects an invalid role (and empty
content), but `update_conversation` never invokes it: an append with the
role `"bogus"` and empty content succeeds and mutates the store instead of
failing with a validation error. -/
theorem C3_append_skips_validation :
    validate_message "bogus" "" = .error (.invalidRole "bogus") ∧
    update_conversation 10 "T" [] "b" "bogus" "" =
      [("b", [{ role := "bogus", content := "", timestamp := "T", message_id := 1 }])] :=
  ⟨rfl, rfl⟩

/-- Decoding the encoded store restores every branch binding. -/
theorem load_save_fields (st : Store) :
    mapMO (fun kv =>
        match kv.2 with
        | .arr ms => (mapMO msgOfJson ms).map (fun msgs => (kv.1, msgs))
        | _ => none)
      (st.map fun kv => (kv.1, Json.arr (kv.2.map msgToJson))) = some st := by
  induction st with
  | nil => rfl
  | cons kv rest ih => simp [mapMO, mapMO_msgOfJson_msgToJson, ih]

/-- C8: saving the store and then loading it restores an identical mapping
(the round trip of `save_conversations` then `load_conversations` at the
JSON snapshot level is the identity). -/
theorem C8_save_load_roundtrip (st : Store) :
    load_conversations (save_conversations st) = some st :=
  load_save_fields st

/-- C9: the question scan and the fence scan of
`extract_questions_and_code` are independent: for every text the questions
are computed from the lines alone (`questionsSpec` never consults fences),
and on the concrete text `"` ``` `\nIs this ok?\n` ``` `"` the fenced line
`"Is this ok?"` is reported both as a question and as the code block. -/
theorem C9_question_scan_ignores_fences :
    (∀ s : String, (extract_questions_and_code s).questions = questionsSpec s) ∧
    (extract_questions_and_code "```\nIs this ok?\n```").questions = ["Is this ok?"] ∧
    (extract_questions_and_code "```\nIs this ok?\n```").code_blocks = ["Is this ok?"] :=
  ⟨extract_questions_eq_spec, by decide, by decide⟩

/-- C6 counterexample: on `"` ``` `python\nprint(1)\n` ``` `"` the extracted
code block keeps the language tag `python` as its first line; the claimed
output with the language tag stripped is not produced. -/
theorem C6_counterexample_language_tag_kept :
    (extract_questions_and_code "```python\nprint(1)\n```").code_blocks =
      ["python\nprint(1)"] ∧
    (extract_questions_and_code "```python\nprint(1)\n```").code_blocks ≠
      ["print(1)"] := by
  refine ⟨by decide, by decide⟩

/-- C6 amended: `extract_questions_and_code` returns as questions exactly
the whitespace-trimmed lines ending in `?` in order with duplicates
preserved, and as code blocks exactly the fenced regions in order with the
fence markers stripped and surrounding whitespace trimmed — but the language
tag immediately after the opening fence is retained as part of the block,
not stripped. -/
theorem C6_parser_extraction_amended (s : String) :
    extract_questions_and_code s =
      { questions := questionsSpec s, code_blocks := codeBlocksSpec s } := by
  unfold extract_questions_and_code codeBlocksSpec
  rw [fenceMatches_eq_spec, foldl_questions]
  simp [questionsSpec]

/-- C7: `verify_code_with_chatgpt` returns absent (`none`) — and, being a
total function, never raises — whenever the underlying generation call
fails, or the raw response contains no brace-delimited region, or parsing
the extracted region fails. -/
theorem C7_verifier_absent_on_failure (call : Option String)
    (loadsJson : String → Option Json) :
    (call = none → verify_code_with_chatgpt call loadsJson = none) ∧
    (∀ raw, call = some raw → braceSpan raw = none →
      verify_code_with_chatgpt call loadsJson = none) ∧
    (∀ raw json_str, call = some raw → braceSpan raw = some json_str →
      loadsJson json_str = none →
      verify_code_with_chatgpt call loadsJson = none) := by
  refine ⟨?_, ?_, ?_⟩
  · intro h
    subst h
    rfl
  · intro raw hc hb
    subst hc
    by_cases he : raw = "" <;> simp [verify_code_with_chatgpt, he, hb]
  · intro raw json_str hc hb hl
    subst hc
    by_cases he : raw = "" <;> simp [verify_code_with_chatgpt, he, hb, hl]

/-- Witness for C7: the repository's own test input `"No JSON here"` has no
brace-delimited region and verification returns absent. -/
theorem C7_verifier_absent_on_failure_witness :
    braceSpan "No JSON here" = none ∧
    verify_code_with_chatgpt (some "No JSON here") (fun _ => none) = none :=
  ⟨by decide,
   (C7_verifier_absent_on_failure (some "No JSON here") (fun _ => none)).2.1
     "No JSON here" rfl (by decide)⟩

/-- C1 (code_bug), evaluated at the spec §8 question scenario (generation
returns the single question `"Need more info?"` and no code): the
orchestrator asks the human exactly once, but it appends the answer to the
derived child branch `"root_Q0"` and re-enters the recursion there — branch
`"root"` ends with only the prompt and the reply, never receiving the
answer, contrary to the mandated same-branch sequential policy that the
repository's own test `test_recursive_prompt_question_flow` also asserts. -/
theorem C1_question_handled_on_derived_child_branch :
    (recursive_prompt envQuestion 2 "root" "build X" 0 3 stZero).events.countP isAskEvent
        = 1 ∧
    (recursive_prompt envQuestion 2 "root" "build X" 0 3 stZero).events.countP isGenEvent
        = 2 ∧
    (recursive_prompt envQuestion 2 "root" "build X" 0 3 stZero).store.map Prod.fst
        = ["root", "root_Q0"] ∧
    (dictGetConv (recursive_prompt envQuestion 2 "root" "build X" 0 3 stZero).store
        "root").map (fun m => (m.role, m.content))
        = [("user", "build X"), ("assistant", "Need more info?")] ∧
    (dictGetConv (recursive_prompt envQuestion 2 "root" "build X" 0 3 stZero).store
        "root_Q0").map (fun m => (m.role, m.content))
        = [("user", "because"), ("user", "because")] := by
  refine ⟨by decide, by decide, by decide, by decide, by decide⟩

/-- C2 counterexample: a turn extracting exactly one code block whose
verification verdict is absent performs the verification call but enters
the refinement loop zero times and appends nothing beyond the prompt and
the reply — the block is skipped, not refined. -/
theorem C2_counterexample_absent_verdict_not_refined :
    (extract_questions_and_code "```\ncode\n```").code_blocks = ["code"] ∧
    envAbsentVerdict.verify "code" = none ∧
    (recursive_prompt envAbsentVerdict 1 "b" "p" 0 3 stZero).events.countP isVerifyEvent
        = 1 ∧
    (recursive_prompt envAbsentVerdict 1 "b" "p" 0 3 stZero).events.countP isRefineEvent
        = 0 ∧
    (dictGetConv (recursive_prompt envAbsentVerdict 1 "b" "p" 0 3 stZero).store "b").length
        = 2 :=
  ⟨by decide, rfl, by decide, by decide, by decide⟩

/-- C2 (amended): per processed code block, an absent verdict — and likewise
a falsy one such as the empty object — is skipped with no refinement and no
save; a present truthy verdict whose `complete` field is falsy invokes the
refinement loop synchronously with the verdict's `feedback` value rendered
as a string, the default `"No feedback provided."` standing in only when the
`feedback` key is missing. -/
theorem C2_refinement_dispatch_amended (env : Env) (branch : String) (i : Nat)
    (code : String) (st : OState) (vd : Json)
    (htruthy : pyTruthy vd = true)
    (hincomplete : pyTruthy (jsonGetD vd "complete" (.bool false)) = false) :
    process_block env branch i code none st = st ∧
    process_block env branch i code (some (.obj [])) st = st ∧
    process_block env branch i code (some vd) st =
      refine_incomplete_code env branch
        (jsonPyStr (jsonGetD vd "feedback" (.str "No feedback provided.")))
        code i st := by
  refine ⟨rfl, rfl, ?_⟩
  simp [process_block, htruthy, hincomplete]

/-- An incomplete verdict with explicit feedback, for the C2 witness. -/
def vdIncomplete : Json :=
  .obj [("complete", .bool false), ("feedback", .str "fix the loop")]

/-- Witness for the amended C2 at a concrete incomplete verdict. -/
theorem C2_refinement_dispatch_amended_witness :
    pyTruthy vdIncomplete = true ∧
    pyTruthy (jsonGetD vdIncomplete "complete" (.bool false)) = false ∧
    process_block envAbsentVerdict "b" 0 "code" (some vdIncomplete) stZero =
      refine_incomplete_code envAbsentVerdict "b" "fix the loop" "code" 0 stZero :=
  ⟨rfl, rfl,
   (C2_refinement_dispatch_amended envAbsentVerdict "b" 0 "code" stZero vdIncomplete
      rfl rfl).2.2⟩

/-- C4: after any append, the branch holds at most `maxLen` messages, and
when truncation occurred (the pre-append length plus the new message
exceeded the window) the element at index 0 is unchanged and the retained
tail is the most recent `maxLen - 1` entries of the appended history.  The
window size is meaningful, `2 ≤ maxLen` (the configured default is 10); at
`maxLen ≤ 1` the Python slice `[-(maxLen - 1):]` degenerates and the bound
fails. -/
theorem C4_window_invariant (maxLen : Nat) (h2 : 2 ≤ maxLen) (st : Store)
    (branch role content now : String) :
    (dictGetConv (update_conversation maxLen now st branch role content) branch).length
        ≤ maxLen ∧
    (maxLen < (dictGetConv st branch).length + 1 →
      (dictGetConv (update_conversation maxLen now st branch role content) branch).head?
          = (dictGetConv st branch).head? ∧
      (dictGetConv (update_conversation maxLen now st branch role content) branch).tail
          = (dictGetConv st branch ++ [appendedMessage st branch role content now]).drop
              ((dictGetConv st branch).length + 1 - (maxLen - 1))) := by
  rw [update_conversation_branch]
  by_cases hgt : maxLen < (dictGetConv st branch).length + 1
  · cases ho : dictGetConv st branch with
    | nil =>
      rw [ho] at hgt
      simp only [List.length_nil] at hgt
      omega
    | cons o os =>
      rw [ho] at hgt
      simp only [List.length_cons] at hgt
      simp only [List.cons_append]
      have hlen : maxLen <
          (o :: (os ++ [appendedMessage st branch role content now])).length := by
        simp only [List.length_cons, List.length_append, List.length_nil]
        omega
      rw [slide_eq_of_gt maxLen h2 o _ hlen]
      refine ⟨?_, fun _ => ⟨?_, ?_⟩⟩
      · simp only [List.length_cons, List.length_drop, List.length_append, List.length_nil]
        omega
      · simp
      · simp only [List.tail_cons, List.cons_append]
        congr 1
        simp only [List.length_cons, List.length_append, List.length_nil]
  · have hle : (dictGetConv st branch
        ++ [appendedMessage st branch role content now]).length ≤ maxLen := by
      simp only [List.length_append, List.length_cons, List.length_nil]
      omega
    rw [slide_eq_of_le maxLen _ hle]
    refine ⟨by simpa using hle, fun h => absurd h hgt⟩

/-- A branch already holding a full window of ten messages. -/
def fullBranch : List Message :=
  (List.range 10).map (fun i =>
    { role := "user", content := "m", timestamp := "T", message_id := i + 1 })

/-- A store whose branch `"b"` is full, for the C4 and C10 witnesses. -/
def storeFull : Store := [("b", fullBranch)]

/-- Witness for C4 at the configured window size 10 on a full branch. -/
theorem C4_window_invariant_witness :
    (2 ≤ 10) ∧
    ((dictGetConv (update_conversation 10 "T" storeFull "b" "user" "hello") "b").length
        ≤ 10 ∧
     (10 < (dictGetConv storeFull "b").length + 1 →
       (dictGetConv (update_conversation 10 "T" storeFull "b" "user" "hello") "b").head?
           = (dictGetConv storeFull "b").head? ∧
       (dictGetConv (update_conversation 10 "T" storeFull "b" "user" "hello") "b").tail
           = (dictGetConv storeFull "b"
               ++ [appendedMessage storeFull "b" "user" "hello" "T"]).drop
               ((dictGetConv storeFull "b").length + 1 - (10 - 1)))) :=
  ⟨by decide, C4_window_invariant 10 (by decide) storeFull "b" "user" "hello" "T"⟩

/-- C10: the message built by every append carries
`message_id = pre-append length + 1`, and that message is always the last
element of the branch afterwards; consequently, once a branch sits at the
window size `maxLen`, every subsequent append assigns the same id
`maxLen + 1` (the window slides the length back to `maxLen`), so after two
such appends the branch holds two distinct messages with the identical id
`maxLen + 1` — ids within a branch are no longer unique (shown for
`3 ≤ maxLen`; the configured default is 10). -/
theorem C10_message_id_reuse (maxLen : Nat) (st : Store)
    (branch r1 c1 n1 r2 c2 n2 : String)
    (h3 : 3 ≤ maxLen) (hfull : (dictGetConv st branch).length = maxLen) :
    (∀ (st' : Store) (b role content now : String),
      (appendedMessage st' b role content now).message_id =
        (dictGetConv st' b).length + 1 ∧
      ∀ mL : Nat,
        ((dictGetConv (update_conversation mL now st' b role content) b).getLast?).map
            (fun m => m.message_id) = some ((dictGetConv st' b).length + 1)) ∧
    (appendedMessage st branch r1 c1 n1).message_id = maxLen + 1 ∧
    (dictGetConv (update_conversation maxLen n1 st branch r1 c1) branch).length = maxLen ∧
    (appendedMessage (update_conversation maxLen n1 st branch r1 c1) branch r2 c2 n2).message_id
        = maxLen + 1 ∧
    2 ≤ (dictGetConv (update_conversation maxLen n2
            (update_conversation maxLen n1 st branch r1 c1) branch r2 c2) branch).countP
          (fun m => m.message_id == maxLen + 1) := by
  have general : ∀ (st' : Store) (b role content now : String),
      (appendedMessage st' b role content now).message_id =
        (dictGetConv st' b).length + 1 ∧
      ∀ mL : Nat,
        ((dictGetConv (update_conversation mL now st' b role content) b).getLast?).map
            (fun m => m.message_id) = some ((dictGetConv st' b).length + 1) := by
    intro st' b role content now
    refine ⟨rfl, ?_⟩
    intro mL
    rw [update_conversation_branch, slide_getLast?]
    rfl
  set m1 := appendedMessage st branch r1 c1 n1 with hm1
  have hid1 : m1.message_id = maxLen + 1 := by
    rw [hm1]
    simp [appendedMessage, hfull]
  cases ho : dictGetConv st branch with
  | nil =>
    rw [ho] at hfull
    simp only [List.length_nil] at hfull
    omega
  | cons o os =>
    have hos : os.length = maxLen - 1 := by
      rw [ho] at hfull
      simp only [List.length_cons] at hfull
      omega
    have hl1 : dictGetConv (update_conversation maxLen n1 st branch r1 c1) branch
        = o :: (os.drop 1 ++ [m1]) := by
      rw [update_conversation_branch, ← hm1, ho]
      simp only [List.cons_append]
      rw [slide_eq_of_gt maxLen (by omega) o _
        (by simp only [List.length_cons, List.length_append, List.length_nil]; omega)]
      congr 1
      have hk : (o :: (os ++ [m1])).length - (maxLen - 1) = 2 := by
        simp only [List.length_cons, List.length_append, List.length_nil]
        omega
      rw [hk]
      rw [show (o :: (os ++ [m1]) : List Message).drop 2 = (os ++ [m1]).drop 1 from rfl]
      exact drop_append_le os [m1] 1 (by omega)
    have hlen1 : (dictGetConv (update_conversation maxLen n1 st branch r1 c1) branch).length
        = maxLen := by
      rw [hl1]
      simp only [List.length_cons, List.length_append, List.length_drop, List.length_nil]
      omega
    set st1 := update_conversation maxLen n1 st branch r1 c1 with hst1
    set m2 := appendedMessage st1 branch r2 c2 n2 with hm2
    have hid2 : m2.message_id = maxLen + 1 := by
      rw [hm2]
      simp only [appendedMessage]
      rw [hlen1]
    have hl2 : dictGetConv (update_conversation maxLen n2 st1 branch r2 c2) branch
        = o :: (os.drop 2 ++ [m1, m2]) := by
      rw [update_conversation_branch, ← hm2, hl1]
      simp only [List.cons_append]
      rw [slide_eq_of_gt maxLen (by omega) o _
        (by simp only [List.length_cons, List.length_append, List.length_drop,
              List.length_nil]; omega)]
      congr 1
      have hk : (o :: ((os.drop 1 ++ [m1]) ++ [m2])).length - (maxLen - 1) = 2 := by
        simp only [List.length_cons, List.length_append, List.length_drop, List.length_nil]
        omega
      rw [hk]
      rw [show (o :: ((os.drop 1 ++ [m1]) ++ [m2]) : List Message).drop 2
            = ((os.drop 1 ++ [m1]) ++ [m2]).drop 1 from rfl]
      rw [List.append_assoc]
      rw [drop_append_le (os.drop 1) ([m1] ++ [m2]) 1
        (by simp only [List.length_drop]; omega)]
      rw [List.drop_drop]
      rfl
    refine ⟨general, hid1, hlen1, hid2, ?_⟩
    rw [hl2]
    rw [show (o :: (os.drop 2 ++ [m1, m2]) : List Message)
          = (o :: os.drop 2) ++ [m1, m2] from rfl]
    rw [List.countP_append]
    have hcnt : List.countP (fun m => m.message_id == maxLen + 1) [m1, m2] = 2 := by
      simp [List.countP_cons, hid1, hid2]
    rw [hcnt]
    exact Nat.le_add_left 2 _

/-- Witness for C10 at the configured window size 10 on a full branch. -/
theorem C10_message_id_reuse_witness :
    (3 ≤ 10) ∧
    (dictGetConv storeFull "b").length = 10 ∧
    ((∀ (st' : Store) (b role content now : String),
        (appendedMessage st' b role content now).message_id =
          (dictGetConv st' b).length + 1 ∧
        ∀ mL : Nat,
          ((dictGetConv (update_conversation mL now st' b role content) b).getLast?).map
              (fun m => m.message_id) = some ((dictGetConv st' b).length + 1)) ∧
     (appendedMessage storeFull "b" "user" "x" "Ta").message_id = 11 ∧
     (dictGetConv (update_conversation 10 "Ta" storeFull "b" "user" "x") "b").length = 10 ∧
     (appendedMessage (update_conversation 10 "Ta" storeFull "b" "user" "x")
         "b" "user" "y" "Tb").message_id = 11 ∧
     2 ≤ (dictGetConv (update_conversation 10 "Tb"
             (update_conversation 10 "Ta" storeFull "b" "user" "x") "b" "user" "y")
             "b").countP (fun m => m.message_id == 11)) :=
  ⟨by decide, by decide,
   C10_message_id_reuse 10 storeFull "b" "user" "x" "Ta" "user" "y" "Tb"
     (by decide) (by decide)⟩
